import Mathlib

/-!
Verification development for the single-file UDP/ROS bridge
(src/src/main.cpp, class UdpServer).

The development shallowly embeds:

* the JSON value model and the subset of the jsoncpp library behaviour the
  program exercises (Json::Value member access, asString conversion,
  Json::FastWriter serialization, Json::Reader parsing);
* the envelope codec implicit in listenerCallback (encode) and
  handleReceive (decode);
* the routing logic of handleReceive;
* a state machine for the transport (receivePacket / handleReceive /
  sendPacket and the sender_endpoint_ slot).

Modelling conventions:
* byte strings are modelled as Lean String (sequences of scalar values);
  the writer and reader treat characters the way jsoncpp treats bytes
  (control characters below 0x20 are escaped, everything else passes
  through verbatim);
* integer JSON numbers are arbitrary-precision integers; fractional or
  exponent literals parse as realValue nodes carrying their token text
  (no claim depends on a numeric value or on its rendering);
* comments, allowed by the default Reader features, are skipped at the
  token positions where Json::Reader skips them;
* a failed jsoncpp assertion (Json::Value::operator[] or asString on a
  value of the wrong type) throws an exception the program does not
  catch; this is modelled as an explicit crash outcome.
-/

namespace UdpBridge

/-- JSON values, as stored by a jsoncpp Json::Value; the constructor order
follows the jsoncpp ValueType enumeration.  Object members are kept as an
association list; lookups are by key, so the list order is unobservable to
the program logic. -/
inductive Json where
  | null
  | num (n : Int)
  | real (text : String)
  | str (text : String)
  | bool (b : Bool)
  | arr (items : List Json)
  | obj (fields : List (String × Json))
deriving Repr

/-- First-match lookup of an object member. -/
def lookupMember : List (String × Json) → String → Option Json
  | [], _ => none
  | (k, v) :: rest, key => if k = key then some v else lookupMember rest key

/-- Whether an object member list has a member with the given key. -/
def hasMember (kvs : List (String × Json)) (key : String) : Bool :=
  (lookupMember kvs key).isSome

/-- Json::Value::isMember.  Returns none when the receiver is neither an
object nor null, modelling the failed jsoncpp assertion (an exception the
program does not catch). -/
def isMemberOpt : Json → String → Option Bool
  | .obj kvs, key => some (hasMember kvs key)
  | .null, _ => some false
  | _, _ => none

/-- Non-const Json::Value::operator[] on a string key: on an object it
yields the member (or a fresh null member when absent); on null it turns
the value into an object and yields a null member; on any other value the
jsoncpp assertion fails (modelled as none). -/
def getMember : Json → String → Option Json
  | .obj kvs, key => some ((lookupMember kvs key).getD .null)
  | .null, _ => some .null
  | _, _ => none

/-- Json::Value::asString: null becomes the empty string, booleans,
integers and reals are converted, strings are returned as-is; arrays and
objects are not convertible (the jsoncpp assertion fails, modelled as
none).  For a realValue the program renders the stored double; the
embedding keeps the numeric token text instead (the conversion succeeds in
both, and no claim depends on the exact rendering of a number). -/
def asString : Json → Option String
  | .null => some ""
  | .bool b => some (if b then "true" else "false")
  | .num n => some (toString n)
  | .real t => some t
  | .str s => some s
  | _ => none

/-! ## Writer (Json::FastWriter) -/

/-- Upper-case hexadecimal digit, as emitted by the jsoncpp control
character escape. -/
def hexDigitChar (n : Nat) : Char :=
  if n < 10 then Char.ofNat (48 + n) else Char.ofNat (55 + n)

/-- Four-digit hexadecimal rendering of a code point below 0x10000. -/
def toHex4 (n : Nat) : List Char :=
  [hexDigitChar (n / 4096 % 16), hexDigitChar (n / 256 % 16),
   hexDigitChar (n / 16 % 16), hexDigitChar (n % 16)]

/-- Per-character JSON string escaping, following jsoncpp
valueToQuotedString: quote, backslash and the named control characters get
two-character escapes, the remaining control characters below 0x20 get a
\u escape, everything else passes through. -/
def escapeChar (c : Char) : List Char :=
  if c = '"' then ['\\', '"']
  else if c = '\\' then ['\\', '\\']
  else if c = '\x08' then ['\\', 'b']
  else if c = '\x0c' then ['\\', 'f']
  else if c = '\n' then ['\\', 'n']
  else if c = '\x0d' then ['\\', 'r']
  else if c = '\t' then ['\\', 't']
  else if c.toNat < 32 then '\\' :: 'u' :: toHex4 c.toNat
  else [c]

/-- Escape every character of a string body. -/
def escapeList : List Char → List Char
  | [] => []
  | c :: cs => escapeChar c ++ escapeList cs

/-- jsoncpp valueToQuotedString: a double-quoted, escaped string. -/
def valueToQuotedString (s : String) : List Char :=
  '"' :: (escapeList s.data ++ ['"'])

mutual

/-- Compact serialization of a JSON value, following Json::FastWriter
(no spaces, members in list order; the embedding keeps object members in
the sorted key order jsoncpp std::map iteration produces for the values
the program builds). -/
def writeJson : Json → List Char
  | .null => "null".data
  | .bool b => if b then "true".data else "false".data
  | .num n => (toString n).data
  | .real t => t.data
  | .str s => valueToQuotedString s
  | .arr es => '[' :: (writeElems es ++ [']'])
  | .obj kvs => '\x7b' :: (writeMembers kvs ++ ['\x7d'])

/-- Comma-separated serialization of array elements. -/
def writeElems : List Json → List Char
  | [] => []
  | [e] => writeJson e
  | e :: rest => writeJson e ++ ',' :: writeElems rest

/-- Comma-separated serialization of object members. -/
def writeMembers : List (String × Json) → List Char
  | [] => []
  | [(k, v)] => valueToQuotedString k ++ ':' :: writeJson v
  | (k, v) :: rest =>
      valueToQuotedString k ++ ':' :: writeJson v ++ ',' :: writeMembers rest

end

/-- Json::FastWriter::write: the serialized document followed by a
newline. -/
def fastWrite (j : Json) : List Char := writeJson j ++ ['\n']

/-! ## Reader (Json::Reader with default features) -/

/-- JSON whitespace. -/
def isJsonWs (c : Char) : Bool :=
  c = ' ' || c = '\t' || c = '\n' || c = '\x0d'

/-- Skip leading whitespace. -/
def skipWs : List Char → List Char
  | c :: cs =>
      if isJsonWs c then skipWs cs
      else c :: cs
  | [] => []

/-- Value of a hexadecimal digit character. -/
def hexVal (c : Char) : Option Nat :=
  let n := c.toNat
  if 48 ≤ n && n ≤ 57 then some (n - 48)
  else if 65 ≤ n && n ≤ 70 then some (n - 55)
  else if 97 ≤ n && n ≤ 102 then some (n - 87)
  else none

/-- Named escape sequences accepted by Json::Reader decodeString. -/
def unescapeChar (e : Char) : Option Char :=
  if e = '"' then some '"'
  else if e = '\\' then some '\\'
  else if e = '/' then some '/'
  else if e = 'b' then some '\x08'
  else if e = 'f' then some '\x0c'
  else if e = 'n' then some '\n'
  else if e = 'r' then some '\x0d'
  else if e = 't' then some '\t'
  else none

/-- Read the body of a JSON string after the opening quote, returning the
decoded characters and the rest of the input after the closing quote.
Following Json::Reader decodeUnicodeCodePoint, a high-surrogate escape
(D800 to DBFF) must be followed immediately by another backslash-u escape;
the low ten bits of the two values are combined into one code point
(jsoncpp masks with 0x3FF and does not range-check the second escape).
A lone low-surrogate escape is accepted, as in jsoncpp; its value is not
a Unicode scalar, so Char.ofNat yields a placeholder where jsoncpp emits
unpaired-surrogate bytes - an approximation below the parse boundary. -/
def readStringBody : List Char → Option (List Char × List Char)
  | [] => none
  | '"' :: rest => some ([], rest)
  | '\\' :: 'u' :: h1 :: h2 :: h3 :: h4 :: rest =>
      (match hexVal h1, hexVal h2, hexVal h3, hexVal h4 with
       | some a, some b, some c, some d =>
           if 55296 ≤ 4096 * a + 256 * b + 16 * c + d
               ∧ 4096 * a + 256 * b + 16 * c + d ≤ 56319 then
             match rest with
             | '\\' :: 'u' :: g1 :: g2 :: g3 :: g4 :: rest2 =>
                 (match hexVal g1, hexVal g2, hexVal g3, hexVal g4 with
                  | some a2, some b2, some c2, some d2 =>
                      (readStringBody rest2).map
                        (fun p =>
                          (Char.ofNat (65536
                              + (4096 * a + 256 * b + 16 * c + d) % 1024 * 1024
                              + (4096 * a2 + 256 * b2 + 16 * c2 + d2) % 1024)
                            :: p.1, p.2))
                  | _, _, _, _ => none)
             | _ => none
           else
             (readStringBody rest).map
               (fun p => (Char.ofNat (4096 * a + 256 * b + 16 * c + d) :: p.1, p.2))
       | _, _, _, _ => none)
  | '\\' :: e :: rest =>
      (match unescapeChar e with
       | some u => (readStringBody rest).map (fun p => (u :: p.1, p.2))
       | none => none)
  | c :: rest => (readStringBody rest).map (fun p => (c :: p.1, p.2))

/-- Read a run of decimal digits, accumulating their value. -/
def readDigits : List Char → Nat → Nat × List Char
  | [], acc => (acc, [])
  | c :: cs, acc =>
      if c.isDigit then readDigits cs (acc * 10 + (c.toNat - 48))
      else (acc, c :: cs)

/-- Insert an object member, overwriting an existing member with the same
key in place (jsoncpp std::map assignment semantics). -/
def insertMember : List (String × Json) → String → Json → List (String × Json)
  | [], key, v => [(key, v)]
  | (k, w) :: rest, key, v =>
      if k = key then (k, v) :: rest else (k, w) :: insertMember rest key v

/-- Span of leading decimal digits: the digits and the rest of the input. -/
def digitSpan : List Char → List Char × List Char
  | [] => ([], [])
  | c :: cs =>
      if c.isDigit then
        match digitSpan cs with
        | (ds, rest) => (c :: ds, rest)
      else ([], c :: cs)

/-- Fractional part of a number token: a dot followed by any run of
digits, as the Json::Reader readNumber automaton consumes it (the digit
run may be empty). -/
def fracSpan (cs : List Char) : List Char × List Char :=
  match cs with
  | '.' :: rest =>
      (match digitSpan rest with
       | (ds, r) => ('.' :: ds, r))
  | _ => ([], cs)

/-- Exponent part of a number token: e or E, an optional sign, and any
run of digits, as the Json::Reader readNumber automaton consumes it (the
digit run may be empty). -/
def expSpan (cs : List Char) : List Char × List Char :=
  match cs with
  | 'e' :: '+' :: rest =>
      (match digitSpan rest with | (ds, r) => ('e' :: '+' :: ds, r))
  | 'e' :: '-' :: rest =>
      (match digitSpan rest with | (ds, r) => ('e' :: '-' :: ds, r))
  | 'e' :: rest =>
      (match digitSpan rest with | (ds, r) => ('e' :: ds, r))
  | 'E' :: '+' :: rest =>
      (match digitSpan rest with | (ds, r) => ('E' :: '+' :: ds, r))
  | 'E' :: '-' :: rest =>
      (match digitSpan rest with | (ds, r) => ('E' :: '-' :: ds, r))
  | 'E' :: rest =>
      (match digitSpan rest with | (ds, r) => ('E' :: ds, r))
  | _ => ([], cs)

/-- Number token tail after the already-consumed minus sign or first
digit, following the Json::Reader readNumber automaton: a run of digits,
an optional fractional part, an optional exponent part. -/
def numTokenTail (cs : List Char) : List Char × List Char :=
  match digitSpan cs with
  | (ds, r1) =>
      match fracSpan r1 with
      | (fs, r2) =>
          match expSpan r2 with
          | (es, r3) => (ds ++ fs ++ es, r3)

/-- Whether a number token body (after the optional minus sign) begins in
a form strtod accepts, which is what the sscanf call in Json::Reader
decodeDouble requires: a digit, or a dot followed by a digit. -/
def doubleBodyOk : List Char → Bool
  | c :: rest =>
      c.isDigit || (c = '.' && (match rest with
        | c2 :: _ => c2.isDigit
        | [] => false))
  | [] => false

/-- Decode a number token, following Json::Reader decodeNumber: when every
character after the optional minus sign is a digit the token is integral
(an empty digit run decodes to zero, as a lone minus sign does in
jsoncpp); otherwise decodeDouble accepts the token exactly when strtod
finds a valid prefix, yielding a realValue.  Very large integral literals
stay arbitrary-precision integers instead of overflowing to a realValue -
both parse, and no claim depends on the distinction. -/
def decodeNumberToken : List Char → Option Json
  | '-' :: body =>
      if body.all (fun c => c.isDigit) then
        some (.num (-((readDigits body 0).1 : Int)))
      else if doubleBodyOk body then some (.real (String.mk ('-' :: body)))
      else none
  | body =>
      if body.all (fun c => c.isDigit) then
        some (.num ((readDigits body 0).1 : Int))
      else if doubleBodyOk body then some (.real (String.mk body))
      else none

/-- Read a number, as Json::Reader does for a token starting with a minus
sign or a digit: consume the token with the readNumber automaton, then
decode it. -/
def readNumber : List Char → Option (Json × List Char)
  | c :: rest =>
      if c = '-' || c.isDigit then
        match numTokenTail rest with
        | (ts, r) =>
            match decodeNumberToken (c :: ts) with
            | some v => some (v, r)
            | none => none
      else none
  | [] => none

/-- Skip the remainder of a line comment after the two slashes: everything
up to and including the first newline or carriage return (or the whole
input), as Json::Reader readCppStyleComment consumes it. -/
def skipLineComment : List Char → List Char
  | [] => []
  | c :: cs => if c = '\n' || c = '\x0d' then cs else skipLineComment cs

/-- Skip the remainder of a block comment after the slash-star: everything
up to and including the closing star-slash; an unterminated comment
consumes the whole input, and the token read that follows then fails at
end of input, as the error Json::Reader reports there does. -/
def skipBlockComment : List Char → List Char
  | '*' :: '/' :: cs => cs
  | _ :: cs => skipBlockComment cs
  | [] => []

/-- Length bound for skipLineComment. -/
theorem skipLineComment_length_le (cs : List Char) :
    (skipLineComment cs).length ≤ cs.length := by
  induction cs with
  | nil => simp [skipLineComment]
  | cons c cs ih =>
    simp only [skipLineComment, List.length_cons]
    split
    · omega
    · omega

/-- Length bound for skipBlockComment. -/
theorem skipBlockComment_length_le (cs : List Char) :
    (skipBlockComment cs).length ≤ cs.length := by
  induction cs using skipBlockComment.induct <;>
    simp_all [skipBlockComment] <;> omega

/-- Fuelled worker for skipWsComments.  Every recursive call strictly
shortens the remaining input (the length bounds above cover the comment
skips), so fuel equal to the input length plus one never runs out. -/
def skipWsCommentsF : Nat → List Char → List Char
  | 0, cs => cs
  | fuel + 1, cs =>
      match cs with
      | '/' :: '/' :: cs2 => skipWsCommentsF fuel (skipLineComment cs2)
      | '/' :: '*' :: cs2 => skipWsCommentsF fuel (skipBlockComment cs2)
      | c :: cs2 =>
          if isJsonWs c then skipWsCommentsF fuel cs2
          else c :: cs2
      | [] => []

/-- Skip whitespace and comments, as a Json::Reader token read preceded
by the comment-skipping loop does (the default features allow line and
block comments); a slash that does not open a comment is left in place
and the following token read fails on it, as the tokenError jsoncpp
produces there does. -/
def skipWsComments (cs : List Char) : List Char :=
  skipWsCommentsF (cs.length + 1) cs

/-- On input whose head is neither whitespace nor a slash, skipWsComments
leaves the input unchanged. -/
theorem skipWsComments_cons (c : Char) (cs : List Char)
    (hws : isJsonWs c = false) (hs : c ≠ '/') :
    skipWsComments (c :: cs) = c :: cs := by
  simp only [skipWsComments, List.length_cons, skipWsCommentsF]
  cases cs with
  | nil => simp [hws, hs]
  | cons c2 cs2 =>
      by_cases h2 : c2 = '/'
      · subst h2
        by_cases h1 : c = '/'
        · exact absurd h1 hs
        · simp [skipWsCommentsF, h1, hws]
      · simp [skipWsCommentsF, hs, h2, hws]

mutual

/-- Recursive-descent JSON value reader, following Json::Reader readValue
with default features: whitespace and comments may precede the value
token.  The fuel argument bounds the depth of the call chain; the
top-level parse supplies more fuel than any input can consume, so the
fuel never affects the result there. -/
def readValue : Nat → List Char → Option (Json × List Char)
  | 0, _ => none
  | fuel + 1, cs =>
      match skipWsComments cs with
      | [] => none
      | c :: rest =>
          if c = '\x7b' then readMembers fuel rest [] ""
          else if c = '[' then
            match skipWs rest with
            | ']' :: rest2 => some (.arr [], rest2)
            | rest2 => readElems fuel rest2 []
          else if c = '"' then
            match readStringBody rest with
            | some (s, rest2) => some (.str (String.mk s), rest2)
            | none => none
          else if c = 't' then
            match rest with
            | 'r' :: 'u' :: 'e' :: rest2 => some (.bool true, rest2)
            | _ => none
          else if c = 'f' then
            match rest with
            | 'a' :: 'l' :: 's' :: 'e' :: rest2 => some (.bool false, rest2)
            | _ => none
          else if c = 'n' then
            match rest with
            | 'u' :: 'l' :: 'l' :: rest2 => some (.null, rest2)
            | _ => none
          else if c = '-' || c.isDigit then readNumber (c :: rest)
          else none

/-- Read the members of a JSON object after the opening brace, following
Json::Reader readObject: whitespace and comments may precede a member
name or follow a member value; a closing brace at the head ends the
object only when the previously read member name was empty - so for the
empty object and, as in jsoncpp, after a trailing comma that follows a
member whose name was the empty string; the colon must follow the member
name with only whitespace in between (readToken skips spaces there but a
comment makes the token fail the member-separator check); duplicate keys
overwrite the earlier member, as in the jsoncpp std::map representation. -/
def readMembers : Nat → List Char → List (String × Json) → String →
    Option (Json × List Char)
  | 0, _, _, _ => none
  | fuel + 1, cs, acc, lastName =>
      match skipWsComments cs with
      | '\x7d' :: rest =>
          if lastName = "" then some (.obj acc, rest) else none
      | '"' :: rest =>
          match readStringBody rest with
          | some (key, rest1) =>
              (match skipWs rest1 with
               | ':' :: rest2 =>
                   match readValue fuel rest2 with
                   | some (v, rest3) =>
                       let acc2 := insertMember acc (String.mk key) v
                       (match skipWsComments rest3 with
                        | ',' :: rest4 => readMembers fuel rest4 acc2 (String.mk key)
                        | '\x7d' :: rest4 => some (.obj acc2, rest4)
                        | _ => none)
                   | none => none
               | _ => none)
          | none => none
      | _ => none

/-- Read the elements of a non-empty JSON array, following Json::Reader
readArray: elements are read by readValue (which skips comments), and
comments may follow an element before the separator. -/
def readElems : Nat → List Char → List Json → Option (Json × List Char)
  | 0, _, _ => none
  | fuel + 1, cs, acc =>
      match readValue fuel cs with
      | some (v, rest) =>
          (match skipWsComments rest with
           | ',' :: rest2 => readElems fuel rest2 (acc ++ [v])
           | ']' :: rest2 => some (.arr (acc ++ [v]), rest2)
           | _ => none)
      | none => none

end

/-- Json::Reader::parse with default features: parse one JSON value after
leading whitespace and comments; trailing input is ignored (the reader
does not check for end of input).  The fuel bound length + 6 exceeds the
longest possible reader call chain on the input, so it never cuts a parse
short. -/
def parse (s : String) : Option Json :=
  match readValue (s.length + 6) s.data with
  | some (j, _) => some j
  | none => none

/-! ## Envelope codec and routing (UdpServer::handleReceive,
UdpServer::listenerCallback) -/

/-- Decoded wire envelope: the four fields handleReceive extracts. -/
structure Envelope where
  op : String
  topic : String
  type : String
  data : String
deriving Repr, DecidableEq

/-- Decode failures of the codec.  TypeError models a failed jsoncpp
assertion (operator[] or asString on a value of the wrong type), an
exception the program does not catch. -/
inductive DecodeFailure where
  | MalformedJSON
  | MissingField
  | TypeError
deriving Repr, DecidableEq

/-- The member-presence check of handleReceive:
isMember op, topic, msg, type (none models the jsoncpp assertion failure
when the root is neither an object nor null). -/
def checkMembers (j : Json) : Option Bool :=
  match isMemberOpt j "op", isMemberOpt j "topic",
        isMemberOpt j "msg", isMemberOpt j "type" with
  | some a, some b, some c, some d => some (a && b && c && d)
  | _, _, _, _ => none

/-- Extraction of the op, topic and type strings, as handleReceive does
with operator[] followed by asString. -/
def getHeader (j : Json) : Option (String × String × String) :=
  match getMember j "op", getMember j "topic", getMember j "type" with
  | some jo, some jt, some jy =>
      (match asString jo, asString jt, asString jy with
       | some op, some topic, some ty => some (op, topic, ty)
       | _, _, _ => none)
  | _, _, _ => none

/-- Extraction of the nested payload string, as handleReceive does with
json["msg"]["data"].asString(). -/
def getMsgData (j : Json) : Option String :=
  match getMember j "msg" with
  | some jm =>
      (match getMember jm "data" with
       | some jd => asString jd
       | none => none)
  | none => none

/-- The inbound route check of handleReceive. -/
def routeMatch (op topic ty : String) : Bool :=
  op == "publish" && topic == "/chatter" && ty == "std_msgs/String"

/-- Codec view of the decoding steps of handleReceive: parse failure,
member-presence check, then extraction of the four fields. -/
def decodeJson (j : Json) : Except DecodeFailure Envelope :=
  match checkMembers j with
  | none => .error .TypeError
  | some false => .error .MissingField
  | some true =>
      match getHeader j with
      | none => .error .TypeError
      | some (op, topic, ty) =>
          match getMsgData j with
          | none => .error .TypeError
          | some d => .ok ⟨op, topic, ty, d⟩

/-- The codec decode: bytes to Envelope or DecodeFailure. -/
def decode (s : String) : Except DecodeFailure Envelope :=
  match parse s with
  | none => .error .MalformedJSON
  | some j => decodeJson j

/-- Outcome of handleReceive on the bytes of one datagram. -/
inductive HandleOutcome where
  | noParse
  | missingField
  | routeDrop
  | crash
  | publish (data : String)
deriving Repr, DecidableEq

/-- Processing of one parsed JSON document, following the exact control
flow of handleReceive: member check, header extraction, route check, and
only then the payload extraction and publish. -/
def processJson (j : Json) : HandleOutcome :=
  match checkMembers j with
  | none => .crash
  | some false => .missingField
  | some true =>
      match getHeader j with
      | none => .crash
      | some (op, topic, ty) =>
          if routeMatch op topic ty then
            match getMsgData j with
            | none => .crash
            | some d => .publish d
          else .routeDrop

/-- Processing of the bytes of one datagram by handleReceive. -/
def processDatagram (s : String) : HandleOutcome :=
  match parse s with
  | none => .noParse
  | some j => processJson j

/-- The envelope built by listenerCallback, generalized over topic, type
and payload per the Codec contract (the callback instantiates it with
topic "/listener" and type "std_msgs/String").  Members appear in the
sorted key order jsoncpp std::map iteration yields. -/
def envelopeJson (topic ty data : String) : Json :=
  .obj [("msg", .obj [("data", .str data)]),
        ("op", .str "publish"),
        ("topic", .str topic),
        ("type", .str ty)]

/-- The codec encode: build the four-field envelope with op "publish" and
serialize it with FastWriter (compact JSON plus a trailing newline). -/
def encode (topic ty data : String) : String :=
  String.mk (fastWrite (envelopeJson topic ty data))

/-! ## Transport state machine (receivePacket, handleReceive, sendPacket,
listenerCallback and the sender_endpoint_ slot) -/

/-- Abstract network address of a remote peer. -/
abbrev Endpoint := Nat

/-- The mutable state of the server: the sender_endpoint_ slot (none
models the default-constructed endpoint before any datagram has arrived),
whether a receive operation is outstanding (the constructor arms the
first one; handleReceive re-arms on the success path only), and whether
an uncaught exception has terminated the process. -/
structure ServerState where
  sender_endpoint : Option Endpoint
  listening : Bool
  crashed : Bool
deriving Repr, DecidableEq

/-- State after the constructor ran: no peer seen, receive armed. -/
def initState : ServerState :=
  { sender_endpoint := none, listening := true, crashed := false }

/-- External events driving the server. -/
inductive Event where
  | datagram (src : Endpoint) (payload : String)
  | busMsg (data : String)
  | recvError
deriving Repr, DecidableEq

/-- Observable actions of the server.  udpSend records the value of the
sender_endpoint_ slot used as the async_send_to destination; a none
destination is the default-constructed endpoint, which reaches no remote
peer. -/
inductive Action where
  | publishChatter (data : String)
  | udpSend (dest : Option Endpoint) (bytes : String)
deriving Repr, DecidableEq

/-- Bus actions emitted by one handleReceive outcome. -/
def outcomeActions : HandleOutcome → List Action
  | .publish d => [.publishChatter d]
  | _ => []

/-- Whether a handleReceive outcome is the uncaught-exception one. -/
def outcomeCrashes : HandleOutcome → Bool
  | .crash => true
  | _ => false

/-- One step of the server.  A datagram is delivered only while a receive
is outstanding; async_receive_from stores the sender address into
sender_endpoint_ before invoking handleReceive; handleReceive re-arms the
receive only on the branch with no error and a positive byte count.
A bus message triggers listenerCallback, which encodes and sends to the
current sender_endpoint_.  A receive error takes the branch that does not
re-arm. -/
def step (s : ServerState) (ev : Event) : ServerState × List Action :=
  if s.crashed then (s, [])
  else
    match ev with
    | .datagram src payload =>
        if s.listening then
          if payload.length > 0 then
            let oc := processDatagram payload
            ({ s with sender_endpoint := some src,
                      listening := !outcomeCrashes oc,
                      crashed := outcomeCrashes oc }, outcomeActions oc)
          else
            ({ s with sender_endpoint := some src, listening := false }, [])
        else (s, [])
    | .busMsg d =>
        (s, [.udpSend s.sender_endpoint (encode "/listener" "std_msgs/String" d)])
    | .recvError =>
        if s.listening then ({ s with listening := false }, []) else (s, [])

/-- Run a sequence of events, accumulating the emitted actions. -/
def run : ServerState → List Event → ServerState × List Action
  | s, [] => (s, [])
  | s, ev :: evs =>
      let p := step s ev
      let q := run p.1 evs
      (q.1, p.2 ++ q.2)

/-! ## Round-trip of the codec -/

theorem mk_data (s : String) : String.mk s.data = s := rfl

theorem hexVal_hexDigitChar (k : Nat) (h : k < 16) :
    hexVal (hexDigitChar k) = some k := by
  interval_cases k <;> decide

theorem readStringBody_escape (cs : List Char) (rest : List Char) :
    readStringBody (escapeList cs ++ '"' :: rest) = some (cs, rest) := by
  induction cs with
  | nil => simp [escapeList, readStringBody]
  | cons c cs ih =>
    rw [escapeList]
    by_cases h1 : c = '"'
    · subst h1; simp [escapeChar, readStringBody, unescapeChar, ih]
    · by_cases h2 : c = '\\'
      · subst h2; simp [escapeChar, readStringBody, unescapeChar, ih]
      · by_cases h3 : c = '\x08'
        · subst h3; simp [escapeChar, readStringBody, unescapeChar, ih]
        · by_cases h4 : c = '\x0c'
          · subst h4; simp [escapeChar, readStringBody, unescapeChar, ih]
          · by_cases h5 : c = '\n'
            · subst h5; simp [escapeChar, readStringBody, unescapeChar, ih]
            · by_cases h6 : c = '\x0d'
              · subst h6; simp [escapeChar, readStringBody, unescapeChar, ih]
              · by_cases h7 : c = '\t'
                · subst h7; simp [escapeChar, readStringBody, unescapeChar, ih]
                · by_cases h8 : c.toNat < 32
                  · have hchar : Char.ofNat c.toNat = c := Char.ofNat_toNat c
                    have e1 : hexVal (hexDigitChar (c.toNat / 4096 % 16)) = some (c.toNat / 4096 % 16) :=
                      hexVal_hexDigitChar _ (Nat.mod_lt _ (by norm_num))
                    have e2 : hexVal (hexDigitChar (c.toNat / 256 % 16)) = some (c.toNat / 256 % 16) :=
                      hexVal_hexDigitChar _ (Nat.mod_lt _ (by norm_num))
                    have e3 : hexVal (hexDigitChar (c.toNat / 16 % 16)) = some (c.toNat / 16 % 16) :=
                      hexVal_hexDigitChar _ (Nat.mod_lt _ (by norm_num))
                    have e4 : hexVal (hexDigitChar (c.toNat % 16)) = some (c.toNat % 16) :=
                      hexVal_hexDigitChar _ (Nat.mod_lt _ (by norm_num))
                    have harith : 4096 * (c.toNat / 4096 % 16) + 256 * (c.toNat / 256 % 16)
                        + 16 * (c.toNat / 16 % 16) + c.toNat % 16 = c.toNat := by omega
                    simp [escapeChar, h1, h2, h3, h4, h5, h6, h7, h8, toHex4,
                          readStringBody, e1, e2, e3, e4, harith, hchar, ih]
                    exact fun hges _ => absurd hges (by omega)
                  · simp [escapeChar, h1, h2, h3, h4, h5, h6, h7, h8, readStringBody, ih]
theorem readValue_write_envelope (f : Nat) (t ty d : String) (rest : List Char) :
    readValue (f + 1 + 1 + 1 + 1 + 1 + 1)
        (writeJson (envelopeJson t ty d) ++ rest)
      = some (envelopeJson t ty d, rest) := by
  simp +decide [envelopeJson, writeJson, writeMembers, valueToQuotedString,
    readValue, readMembers, readStringBody_escape, skipWs, skipWsComments_cons,
    isJsonWs, insertMember, mk_data, List.append_assoc, List.cons_append,
    List.singleton_append, List.nil_append]
theorem parse_encode (t ty d : String) :
    parse (encode t ty d) = some (envelopeJson t ty d) := by
  have hfuel : (encode t ty d).length + 6
      = (encode t ty d).length + 1 + 1 + 1 + 1 + 1 + 1 := by omega
  have hdata : (encode t ty d).data
      = writeJson (envelopeJson t ty d) ++ ['\n'] := rfl
  simp only [parse, hfuel, hdata, readValue_write_envelope]

theorem decodeJson_envelopeJson (t ty d : String) :
    decodeJson (envelopeJson t ty d) = .ok ⟨"publish", t, ty, d⟩ := by
  simp +decide [decodeJson, checkMembers, isMemberOpt, hasMember,
    lookupMember, getHeader, getMember, asString, getMsgData, envelopeJson]

theorem decode_encode (t ty d : String) :
    decode (encode t ty d) = .ok ⟨"publish", t, ty, d⟩ := by
  simp only [decode, parse_encode, decodeJson_envelopeJson]

/-! ## Claims -/

/-- Claim C1: for every pair of strings (topic, data) and every string type
tag, decoding the bytes produced by encode(topic, type, data) succeeds and
yields the Envelope with op "publish", the given topic and type, and
payload data equal to data; this covers the empty string, Unicode, and
characters requiring JSON escaping, since topic, type and data range over
all strings. -/
theorem C1_encode_decode_roundtrip (topic ty data : String) :
    decode (encode topic ty data) = .ok ⟨"publish", topic, ty, data⟩ :=
  decode_encode topic ty data

/-- Claim C2: for every successfully decoded Envelope, the bridge publishes
payload data on the internal /chatter topic if and only if op is publish,
topic is /chatter and type is std_msgs/String; an envelope failing the
three-way match is dropped with no publish. -/
theorem C2_exact_route (s : String) (e : Envelope) (h : decode s = .ok e) :
    (processDatagram s = .publish e.data ↔
      (e.op = "publish" ∧ e.topic = "/chatter" ∧ e.type = "std_msgs/String"))
    ∧ (¬(e.op = "publish" ∧ e.topic = "/chatter" ∧ e.type = "std_msgs/String") →
        processDatagram s = .routeDrop) := by
  unfold decode at h
  unfold processDatagram
  cases hp : parse s with
  | none => rw [hp] at h; exact absurd h (by simp)
  | some j =>
    rw [hp] at h
    dsimp only at h ⊢
    unfold decodeJson at h
    unfold processJson
    cases hc : checkMembers j with
    | none => rw [hc] at h; exact absurd h (by simp)
    | some b =>
      rw [hc] at h
      cases b with
      | false => exact absurd h (by simp)
      | true =>
        cases hh : getHeader j with
        | none => rw [hh] at h; exact absurd h (by simp)
        | some trip =>
          obtain ⟨op, topic, ty⟩ := trip
          rw [hh] at h
          cases hd : getMsgData j with
          | none => rw [hd] at h; exact absurd h (by simp)
          | some d =>
            rw [hd] at h
            simp only [Except.ok.injEq] at h
            subst h
            by_cases hr : routeMatch op topic ty = true
            · have hr2 : op = "publish" ∧ topic = "/chatter" ∧ ty = "std_msgs/String" := by
                simpa [routeMatch, and_assoc] using hr
              simp [hd, hr2, routeMatch]
            · have hr2 : ¬(op = "publish" ∧ topic = "/chatter" ∧ ty = "std_msgs/String") := by
                simpa [routeMatch, and_assoc] using hr
              simp [hr, hr2]

/-- Witness for C2: the scenario-1 datagram decodes to the matching
envelope and is published with payload hello. -/
theorem C2_exact_route_witness :
    processDatagram "\x7b\"op\":\"publish\",\"topic\":\"/chatter\",\"msg\":\x7b\"data\":\"hello\"\x7d,\"type\":\"std_msgs/String\"\x7d"
      = .publish "hello" :=
  ((C2_exact_route
      "\x7b\"op\":\"publish\",\"topic\":\"/chatter\",\"msg\":\x7b\"data\":\"hello\"\x7d,\"type\":\"std_msgs/String\"\x7d"
      ⟨"publish", "/chatter", "std_msgs/String", "hello"⟩ (by rfl)).1).mpr
    (by exact ⟨rfl, rfl, rfl⟩)

/-- Claim C3 is false on the code: in this datagram the keys op, topic,
msg and type are all present but the nested payload field msg.data is
absent, yet decode does not return MissingField (it succeeds with an empty
payload, since operator[] on the msg object yields a null member and
asString of null is the empty string) and the bridge publishes the empty
string instead of dropping the datagram. -/
theorem C3_counterexample :
    decode "\x7b\"op\":\"publish\",\"topic\":\"/chatter\",\"msg\":\x7b\x7d,\"type\":\"std_msgs/String\"\x7d"
        ≠ .error .MissingField
    ∧ decode "\x7b\"op\":\"publish\",\"topic\":\"/chatter\",\"msg\":\x7b\x7d,\"type\":\"std_msgs/String\"\x7d"
        = .ok ⟨"publish", "/chatter", "std_msgs/String", ""⟩
    ∧ processDatagram "\x7b\"op\":\"publish\",\"topic\":\"/chatter\",\"msg\":\x7b\x7d,\"type\":\"std_msgs/String\"\x7d"
        = .publish "" := by
  refine ⟨?_, rfl, rfl⟩
  intro h
  rw [show decode "\x7b\"op\":\"publish\",\"topic\":\"/chatter\",\"msg\":\x7b\x7d,\"type\":\"std_msgs/String\"\x7d"
      = .ok ⟨"publish", "/chatter", "std_msgs/String", ""⟩ from rfl] at h
  exact absurd h (by simp)

/-- Claim C3 (amended): for every byte sequence that parses as a JSON
object in which any of the op, topic, msg or type keys is absent, decode
returns MissingField and nothing is published for that datagram (the code
checks only the presence of the four top-level keys; neither field types
nor the nested payload entry msg.data are checked). -/
theorem C3_missing_member (s : String) (kvs : List (String × Json))
    (hp : parse s = some (.obj kvs))
    (hmiss : hasMember kvs "op" = false ∨ hasMember kvs "topic" = false
      ∨ hasMember kvs "msg" = false ∨ hasMember kvs "type" = false) :
    decode s = .error .MissingField
    ∧ processDatagram s = .missingField := by
  unfold decode processDatagram
  rw [hp]
  dsimp only
  unfold decodeJson processJson checkMembers isMemberOpt
  rcases hmiss with h | h | h | h <;> simp [h]

/-- Witness for the amended C3: the empty JSON object is missing all four
keys; decode returns MissingField and nothing is published. -/
theorem C3_missing_member_witness :
    decode "\x7b\x7d" = .error .MissingField
    ∧ processDatagram "\x7b\x7d" = .missingField :=
  C3_missing_member "\x7b\x7d" [] (by rfl) (Or.inl (by rfl))

/-- Claim C10: a received JSON object carrying op publish, topic /chatter,
type std_msgs/String and a msg member that is an object without a data
entry is not dropped: the bridge publishes the empty string on /chatter
(operator[] creates a null member and asString of null is the empty
string). -/
theorem C10_missing_data_publishes_empty (s : String)
    (kvs mkvs : List (String × Json))
    (hp : parse s = some (.obj kvs))
    (hop : lookupMember kvs "op" = some (.str "publish"))
    (htopic : lookupMember kvs "topic" = some (.str "/chatter"))
    (hty : lookupMember kvs "type" = some (.str "std_msgs/String"))
    (hmsg : lookupMember kvs "msg" = some (.obj mkvs))
    (hnodata : lookupMember mkvs "data" = none) :
    processDatagram s = .publish "" := by
  unfold processDatagram
  rw [hp]
  dsimp only
  unfold processJson checkMembers isMemberOpt hasMember getHeader getMember getMsgData
  simp [hop, htopic, hty, hmsg, hnodata, asString, routeMatch, getMember]

/-- Witness for C10: the scenario datagram with an empty msg object is
published as the empty string. -/
theorem C10_missing_data_publishes_empty_witness :
    processDatagram "\x7b\"op\":\"publish\",\"topic\":\"/chatter\",\"msg\":\x7b\x7d,\"type\":\"std_msgs/String\"\x7d"
      = .publish "" :=
  C10_missing_data_publishes_empty
    "\x7b\"op\":\"publish\",\"topic\":\"/chatter\",\"msg\":\x7b\x7d,\"type\":\"std_msgs/String\"\x7d"
    [("op", .str "publish"), ("topic", .str "/chatter"),
     ("msg", .obj []), ("type", .str "std_msgs/String")] []
    (by rfl) (by rfl) (by rfl) (by rfl) (by rfl) (by rfl)

/-- Claim C5: the Peer Endpoint slot is overwritten on every received
datagram regardless of decode success, and every bus-triggered send
targets the stored endpoint; consequently, after a (malformed) datagram
from address A a bus-triggered send targets A, and after a later datagram
from address B the next send targets B, not A. -/
theorem C5_peer_tracking (s : ServerState) (src A B : Endpoint)
    (payload d d1 d2 : String)
    (hlive : s.crashed = false) (hlisten : s.listening = true) :
    ((step s (.datagram src payload)).1.sender_endpoint = some src)
    ∧ ((step s (.busMsg d)).2
        = [.udpSend s.sender_endpoint (encode "/listener" "std_msgs/String" d)])
    ∧ ((run s [.datagram A "x", .busMsg d1, .datagram B "y", .busMsg d2]).2
        = [.udpSend (some A) (encode "/listener" "std_msgs/String" d1),
           .udpSend (some B) (encode "/listener" "std_msgs/String" d2)]) := by
  have hx : processDatagram "x" = .noParse := rfl
  have hy : processDatagram "y" = .noParse := rfl
  have hlx : "x".length = 1 := rfl
  have hly : "y".length = 1 := rfl
  refine ⟨?_, ?_, ?_⟩
  · unfold step
    rw [hlive]
    by_cases hp : payload.length > 0 <;>
      simp [hlisten, hp, outcomeActions, outcomeCrashes]
  · unfold step; rw [hlive]; simp
  · simp [run, step, hlive, hlisten, hx, hy, hlx, hly, outcomeActions, outcomeCrashes]

/-- Witness for C5: concrete instantiation from the initial state. -/
theorem C5_peer_tracking_witness :
    ((step initState (.datagram 1 "")).1.sender_endpoint = some 1)
    ∧ ((step initState (.busMsg "a")).2
        = [.udpSend none (encode "/listener" "std_msgs/String" "a")])
    ∧ ((run initState [.datagram 1 "x", .busMsg "a", .datagram 2 "y", .busMsg "b"]).2
        = [.udpSend (some 1) (encode "/listener" "std_msgs/String" "a"),
           .udpSend (some 2) (encode "/listener" "std_msgs/String" "b")]) :=
  C5_peer_tracking initState 1 1 2 "" "a" "a" "b" rfl rfl

/-- Claim C6: a string delivered on the internal /listener subscription
triggers exactly one encoded envelope with op publish, topic /listener,
type std_msgs/String and payload equal to the delivered string, handed to
the transport send targeting the last-seen peer; the sent bytes decode
back to that envelope. -/
theorem C6_outbound (s : ServerState) (d : String) (hlive : s.crashed = false) :
    (step s (.busMsg d)).2
      = [.udpSend s.sender_endpoint (encode "/listener" "std_msgs/String" d)]
    ∧ decode (encode "/listener" "std_msgs/String" d)
      = .ok ⟨"publish", "/listener", "std_msgs/String", d⟩ := by
  constructor
  · unfold step; rw [hlive]; simp
  · exact decode_encode "/listener" "std_msgs/String" d

/-- Witness for C6: scenario 2, the bus delivers world on /listener. -/
theorem C6_outbound_witness :
    (step initState (.busMsg "world")).2
      = [.udpSend none (encode "/listener" "std_msgs/String" "world")]
    ∧ decode (encode "/listener" "std_msgs/String" "world")
      = .ok ⟨"publish", "/listener", "std_msgs/String", "world"⟩ :=
  C6_outbound initState "world" rfl

/-- Unfolding of run on a cons of events. -/
theorem run_cons (s : ServerState) (ev : Event) (evs : List Event) :
    run s (ev :: evs)
      = ((run (step s ev).1 evs).1,
         (step s ev).2 ++ (run (step s ev).1 evs).2) := rfl

/-- A bus message leaves the state unchanged and, unless the process has
crashed, emits exactly one send targeting the stored endpoint. -/
theorem step_busMsg_eq (s : ServerState) (d : String) :
    step s (.busMsg d)
      = (s, if s.crashed = true then []
            else [.udpSend s.sender_endpoint
                    (encode "/listener" "std_msgs/String" d)]) := by
  by_cases hc : s.crashed = true <;> simp [step, hc]

/-- A receive error emits nothing and preserves the stored endpoint. -/
theorem step_recvError_eq (s : ServerState) :
    (step s .recvError).1.sender_endpoint = s.sender_endpoint
    ∧ (step s .recvError).2 = [] := by
  unfold step
  by_cases hc : s.crashed = true
  · simp [hc]
  · by_cases hl : s.listening = true <;> simp [hc, hl]

/-- Helper for C7: from a state with no stored peer, a run containing no
datagram event keeps the slot empty and never emits a send with a present
destination. -/
theorem run_no_datagram_no_peer_send (evs : List Event) :
    ∀ (s : ServerState), s.sender_endpoint = none →
      (∀ src payload, Event.datagram src payload ∉ evs) →
      ∀ p bytes, Action.udpSend (some p) bytes ∉ (run s evs).2 := by
  induction evs with
  | nil => intro s hep hnod p bytes; simp [run]
  | cons ev evs ih =>
    intro s hep hnod p bytes
    have hnodtl : ∀ src payload, Event.datagram src payload ∉ evs :=
      fun src payload hmem => hnod src payload (List.mem_cons_of_mem ev hmem)
    rw [run_cons]
    dsimp only
    intro hmem
    rcases List.mem_append.mp hmem with h | h
    · cases ev with
      | datagram src payload => exact hnod src payload (List.mem_cons_self _ _)
      | busMsg d =>
        rw [step_busMsg_eq] at h
        by_cases hc : s.crashed = true
        · rw [if_pos hc] at h; simp at h
        · rw [if_neg hc, hep] at h; simp at h
      | recvError =>
        rw [(step_recvError_eq s).2] at h
        simp at h
    · cases ev with
      | datagram src payload => exact hnod src payload (List.mem_cons_self _ _)
      | busMsg d =>
        have h1 : (step s (.busMsg d)).1 = s := by rw [step_busMsg_eq]
        rw [h1] at h
        exact ih s hep hnodtl p bytes h
      | recvError =>
        have h1 : (step s .recvError).1.sender_endpoint = none := by
          rw [(step_recvError_eq s).1, hep]
        exact ih _ h1 hnodtl p bytes h

/-- Claim C7: if sends happen before any datagram has ever been received,
every send targets the default-constructed (null) endpoint, so no datagram
is transmitted to any remote peer. -/
theorem C7_send_before_receive (evs : List Event)
    (hnod : ∀ src payload, Event.datagram src payload ∉ evs)
    (p : Endpoint) (bytes : String) :
    Action.udpSend (some p) bytes ∉ (run initState evs).2 :=
  run_no_datagram_no_peer_send evs initState rfl hnod p bytes

/-- Witness for C7: a bus message before any datagram does not transmit
to any peer (here: peer 3, with the bytes that send would carry). -/
theorem C7_send_before_receive_witness :
    Action.udpSend (some 3) (encode "/listener" "std_msgs/String" "w")
      ∉ (run initState [.busMsg "w"]).2 :=
  C7_send_before_receive [.busMsg "w"]
    (by intro src payload h; simp at h) 3
    (encode "/listener" "std_msgs/String" "w")

/-- Whether an action is a transport send. -/
def isSend : Action → Bool
  | .udpSend _ _ => true
  | .publishChatter _ => false

/-- Claim C8: processing an inbound datagram never causes an outbound
send, and neither does a receive error: every action emitted by those
steps is a bus publish, never a udpSend; sends arise only from bus
messages on the /listener subscription. -/
theorem C8_inbound_never_sends (s : ServerState) (src : Endpoint)
    (payload : String) :
    ((step s (.datagram src payload)).2.all (fun a => !isSend a) = true)
    ∧ ((step s .recvError).2.all (fun a => !isSend a) = true) := by
  constructor
  · unfold step
    by_cases hc : s.crashed = true
    · simp [hc]
    · by_cases hl : s.listening = true
      · by_cases hp : payload.length > 0
        · cases ho : processDatagram payload <;>
            simp [hc, hl, hp, ho, outcomeActions, outcomeCrashes, isSend]
        · simp [hc, hl, hp]
      · simp [hc, hl]
  · unfold step
    by_cases hc : s.crashed = true
    · simp [hc]
    · by_cases hl : s.listening = true <;> simp [hc, hl]

/-- Claim C9: a zero-byte datagram that completes without a socket error
takes the error branch: the handler emits nothing, does not re-arm the
receive, and from any non-listening state no later datagram is accepted
and no event makes the server listen again. -/
theorem C9_zero_byte_stops_loop (s : ServerState) (src : Endpoint)
    (hlive : s.crashed = false) (hlisten : s.listening = true) :
    step s (.datagram src "")
      = ({ sender_endpoint := some src, listening := false, crashed := false }, [])
    ∧ (∀ (s2 : ServerState), s2.listening = false →
        ∀ src2 payload, step s2 (.datagram src2 payload) = (s2, []))
    ∧ (∀ (s2 : ServerState) (ev : Event), s2.listening = false →
        (step s2 ev).1.listening = false) := by
  refine ⟨?_, ?_, ?_⟩
  · unfold step
    rw [hlive]
    simp [hlisten]
  · intro s2 hl src2 payload
    unfold step
    by_cases hc : s2.crashed = true <;> simp [hc, hl]
  · intro s2 ev hl
    unfold step
    by_cases hc : s2.crashed = true
    · simp [hc, hl]
    · cases ev with
      | datagram src2 payload => simp [hc, hl]
      | busMsg d => simp [hc, hl]
      | recvError => simp [hc, hl]

/-- Witness for C9: concrete zero-byte datagram from the initial state. -/
theorem C9_zero_byte_stops_loop_witness :
    step initState (.datagram 4 "")
      = ({ sender_endpoint := some 4, listening := false, crashed := false }, [])
    ∧ (∀ (s2 : ServerState), s2.listening = false →
        ∀ src2 payload, step s2 (.datagram src2 payload) = (s2, []))
    ∧ (∀ (s2 : ServerState) (ev : Event), s2.listening = false →
        (step s2 ev).1.listening = false) :=
  C9_zero_byte_stops_loop initState 4 rfl rfl

end UdpBridge
